import Mathlib

/-!
Shallow embedding of `src/utils/normalizer.py`, a module of four column-wise
dataframe normalization routines (`zero_one_normalize`,
`negativeone_one_normalize`, `standardize`, `robust_standardize`).

A pandas dataframe is modelled as an ordered association list of named
columns; each column is either numeric (a list of scalars) or non-numeric
(a list of strings).  The rational field ℚ stands for the float values of
the min-max and robust scalers (whose statistics are exact rational
functions of the data); `standardize` divides by a square root, so it is
modelled over ℝ.  The in-place mutation of the caller's
`excluded_colnames` list is modelled by returning the updated list, and
Python's shared mutable default argument by explicit module state.
-/

namespace Normalizer

/-- A dataframe column: either a numeric column (pandas numeric dtype) or a
non-numeric one (object dtype, modelled as strings). -/
inductive Col (α : Type) where
  | num (vals : List α)
  | str (vals : List String)
deriving DecidableEq, Repr

/-- A dataframe: an ordered list of named columns. -/
abbrev DF (α : Type) := List (String × Col α)

/-- Number of rows stored in a column. -/
def Col.size {α : Type} : Col α → Nat
  | .num v => v.length
  | .str v => v.length

/-- Returns `true` for columns of numeric dtype (pandas `select_dtypes(include=np.number)`). -/
def Col.isNum {α : Type} : Col α → Bool
  | .num _ => true
  | .str _ => false

/-- The numeric values of a column (empty for a non-numeric column). -/
def Col.numVals {α : Type} : Col α → List α
  | .num v => v
  | .str _ => []

/-- Pandas `list(df)`: the column names in dataframe order. -/
def colnames {α : Type} (df : DF α) : List String := df.map Prod.fst

/-- First column of the given name, as pandas label lookup does. -/
def lookupCol {α : Type} : DF α → String → Option (Col α)
  | [], _ => none
  | c :: df, n => if c.1 = n then some c.2 else lookupCol df n

/-- Pandas `df[names]`: the columns named in `names`, in the order of `names`
(looked up by label; names not present select nothing). -/
def selectCols {α : Type} (df : DF α) (names : List String) : DF α :=
  names.filterMap fun n => (lookupCol df n).map fun col => (n, col)

/-- Pandas `df.select_dtypes(include=np.number)`: keep the numeric columns. -/
def selectNumeric {α : Type} (df : DF α) : DF α :=
  df.filter fun c => c.2.isNum

/-- Pandas `df.select_dtypes(exclude=np.number)`: keep the non-numeric columns. -/
def selectNonNumeric {α : Type} (df : DF α) : DF α :=
  df.filter fun c => !c.2.isNum

/-- sklearn's `_handle_zeros_in_scale`: a zero scale divides by 1 instead. -/
def handle_zeros (r : ℚ) : ℚ := if r = 0 then 1 else r

/-- Minimum of a column of values (`X.min(axis=0)`); 0 for an empty column. -/
def listMin : List ℚ → ℚ
  | [] => 0
  | x :: xs => xs.foldl min x

/-- Maximum of a column of values (`X.max(axis=0)`); 0 for an empty column. -/
def listMax : List ℚ → ℚ
  | [] => 0
  | x :: xs => xs.foldl max x

/-- Model of `MinMaxScaler` with feature range `(a, b)` applied to one value of the
column `xs`: `x * scale_ + min_` with `scale_ = (b - a) / data_range` and
`min_ = a - data_min * scale_`. -/
def minMaxPoint (a b : ℚ) (xs : List ℚ) (x : ℚ) : ℚ :=
  x * ((b - a) / handle_zeros (listMax xs - listMin xs)) +
    (a - listMin xs * ((b - a) / handle_zeros (listMax xs - listMin xs)))

/-- Model of `MinMaxScaler((a, b)).fit_transform` on one column. -/
def minMaxScale (a b : ℚ) (xs : List ℚ) : List ℚ :=
  xs.map (minMaxPoint a b xs)

/-- Model of `np.percentile(xs, p)` with the default linear interpolation between
the two nearest order statistics. -/
def percentile (p : ℚ) (xs : List ℚ) : ℚ :=
  match xs.mergeSort (fun a b => a ≤ b) with
  | [] => 0
  | sorted =>
    let rank : ℚ := p / 100 * ((sorted.length : ℚ) - 1)
    let i : Nat := rank.floor.toNat
    let lo := sorted.getD i 0
    let hi := sorted.getD (i + 1) lo
    lo + (rank - (i : ℚ)) * (hi - lo)

/-- Model of `RobustScaler` (default quantile range `(25, 75)`) applied to one value
of the column `xs`: subtract the median, divide by the IQR. -/
def robustPoint (xs : List ℚ) (x : ℚ) : ℚ :=
  (x - percentile 50 xs) / handle_zeros (percentile 75 xs - percentile 25 xs)

/-- Model of `RobustScaler().fit_transform` on one column. -/
def robustScale (xs : List ℚ) : List ℚ :=
  xs.map (robustPoint xs)

/-- Mean of a column (`np.mean`). -/
noncomputable def listMean (xs : List ℝ) : ℝ := xs.sum / xs.length

/-- Population variance of a column (`np.var`, `ddof = 0`), as used by
`StandardScaler`. -/
noncomputable def popVar (xs : List ℝ) : ℝ :=
  (xs.map fun x => (x - listMean xs) ^ 2).sum / xs.length

/-- sklearn's `_handle_zeros_in_scale` over ℝ. -/
noncomputable def handle_zerosR (r : ℝ) : ℝ := if r = 0 then 1 else r

/-- Model of `StandardScaler` applied to one value of the column `xs`:
`(x - mean) / sqrt(variance)`, with a zero standard deviation replaced by 1. -/
noncomputable def stdPoint (xs : List ℝ) (x : ℝ) : ℝ :=
  (x - listMean xs) / handle_zerosR (Real.sqrt (popVar xs))

/-- Model of `StandardScaler().fit_transform` on one column. -/
noncomputable def stdScale (xs : List ℝ) : List ℝ :=
  xs.map (stdPoint xs)

/-- The body shared verbatim by the four functions of `normalizer.py`
(lines 36-52, 83-99, 132-148, 177-193), parameterized by the per-column
scaler: split off the candidate columns not named in `excluded_colnames`,
keep their numeric ones, extend `excluded_colnames` in place with the
non-numeric candidates, transform the numeric block column-wise, and join
the excluded block with the transformed block.  Returns the result
dataframe together with the extended `excluded_colnames` list (the code
mutates the caller's list in place). -/
def normalizeWith {α : Type} (scale : List α → List α) (df : DF α)
    (excluded_colnames : List String) : DF α × List String :=
  let numeric_colnames := (colnames df).filter fun n => decide (n ∉ excluded_colnames)
  let df_candidates := selectCols df numeric_colnames
  let df_numeric := selectNumeric df_candidates
  let excluded2 := excluded_colnames ++ colnames (selectNonNumeric df_candidates)
  let df_ids_labels := selectCols df excluded2
  let df_scaled := df_numeric.map fun c => (c.1, Col.num (scale c.2.numVals))
  (df_ids_labels ++ df_scaled, excluded2)

/-- Function `zero_one_normalize` (normalizer.py line 10): `MinMaxScaler()` with the
default feature range `[0, 1]`. -/
def zero_one_normalize (df : DF ℚ) (excluded_colnames : List String) :
    DF ℚ × List String :=
  normalizeWith (minMaxScale 0 1) df excluded_colnames

/-- Function `negativeone_one_normalize` (normalizer.py line 57): `MinMaxScaler((-1, 1))`. -/
def negativeone_one_normalize (df : DF ℚ) (excluded_colnames : List String) :
    DF ℚ × List String :=
  normalizeWith (minMaxScale (-1) 1) df excluded_colnames

/-- Function `standardize` (normalizer.py line 104): `StandardScaler()`. -/
noncomputable def standardize (df : DF ℝ) (excluded_colnames : List String) :
    DF ℝ × List String :=
  normalizeWith stdScale df excluded_colnames

/-- Function `robust_standardize` (normalizer.py line 153): `RobustScaler()`. -/
def robust_standardize (df : DF ℚ) (excluded_colnames : List String) :
    DF ℚ × List String :=
  normalizeWith robustScale df excluded_colnames

/-- Number of rows of a dataframe (pandas `len(df)`): the common length of
its columns; 0 for a dataframe with no columns at all. -/
def rowCount {α : Type} : DF α → Nat
  | [] => 0
  | c :: _ => c.2.size

/-- Model of the `check_array` input validation run by every sklearn
scaler's `fit`: with the defaults `ensure_min_samples=1` (checked first)
and `ensure_min_features=1`, `fit_transform` raises `ValueError` when the
numeric block has no rows or no columns, instead of returning. -/
def scalerCheck {α : Type} (df_numeric : DF α) (nrows : Nat) :
    Except String Unit :=
  if nrows = 0 then Except.error "ValueError: Found array with 0 sample(s)"
  else if df_numeric.length = 0 then
    Except.error "ValueError: Found array with 0 feature(s)"
  else Except.ok ()

/-- The shared function body with the scaler's input validation modelled:
the column partition and the in-place extension of `excluded_colnames`
(line 39) happen before `fit_transform` (lines 43-44), so the extended
list is observable even when the scaler raises; the result dataframe
exists only when `scalerCheck` passes. -/
def normalizeWithChecked {α : Type} (scale : List α → List α) (df : DF α)
    (excluded_colnames : List String) : Except String (DF α) × List String :=
  let r := normalizeWith scale df excluded_colnames
  let df_numeric := selectNumeric (selectCols df
    ((colnames df).filter fun n => decide (n ∉ excluded_colnames)))
  ((match scalerCheck df_numeric (rowCount df) with
    | .error e => .error e
    | .ok _ => .ok r.1), r.2)

/-- Function `zero_one_normalize` with the scaler's validation modelled. -/
def zero_one_normalize_checked (df : DF ℚ) (excluded_colnames : List String) :
    Except String (DF ℚ) × List String :=
  normalizeWithChecked (minMaxScale 0 1) df excluded_colnames

/-- Function `negativeone_one_normalize` with the scaler's validation
modelled. -/
def negativeone_one_normalize_checked (df : DF ℚ)
    (excluded_colnames : List String) : Except String (DF ℚ) × List String :=
  normalizeWithChecked (minMaxScale (-1) 1) df excluded_colnames

/-- Function `standardize` with the scaler's validation modelled. -/
noncomputable def standardize_checked (df : DF ℝ)
    (excluded_colnames : List String) : Except String (DF ℝ) × List String :=
  normalizeWithChecked stdScale df excluded_colnames

/-- Function `robust_standardize` with the scaler's validation modelled. -/
def robust_standardize_checked (df : DF ℚ)
    (excluded_colnames : List String) : Except String (DF ℚ) × List String :=
  normalizeWithChecked robustScale df excluded_colnames

/-- The candidate column names (normalizer.py line 36): dataframe columns
not named in `excluded_colnames`, in dataframe order. -/
def candidateNames {α : Type} (df : DF α) (ex : List String) : List String :=
  (colnames df).filter fun n => decide (n ∉ ex)

/-- The names of the candidate (not caller-excluded) columns of numeric
dtype, in dataframe order. -/
def numericNames {α : Type} (df : DF α) (ex : List String) : List String :=
  (df.filter fun c => c.2.isNum && decide (c.1 ∉ ex)).map Prod.fst

/-- The names of the candidate (not caller-excluded) columns of non-numeric
dtype, in dataframe order: the names the call appends to `excluded_colnames`. -/
def nonNumericCandidateNames {α : Type} (df : DF α) (ex : List String) : List String :=
  (df.filter fun c => !c.2.isNum && decide (c.1 ∉ ex)).map Prod.fst

/-- The one default-argument list object per function, created when Python
evaluates each `def excluded_colnames: list = []` and shared by every call
that omits the argument. -/
structure ModuleState where
  zeroOneDefault : List String
  negOneDefault : List String
  stdDefault : List String
  robustDefault : List String

/-- Module state right after `import`: each default is a fresh empty list. -/
def initState : ModuleState := ⟨[], [], [], []⟩

/-- A call `zero_one_normalize(df)` with `excluded_colnames` omitted: the
parameter is bound to the module's single default list object, and
`excluded_colnames.extend(...)` mutates that shared object before the
scaler runs — the stored default is extended even when the call raises. -/
def zero_one_normalize_omitted (st : ModuleState) (df : DF ℚ) :
    Except String (DF ℚ) × ModuleState :=
  let r := zero_one_normalize_checked df st.zeroOneDefault
  (r.1, { st with zeroOneDefault := r.2 })

/-- A call `negativeone_one_normalize(df)` with `excluded_colnames` omitted. -/
def negativeone_one_normalize_omitted (st : ModuleState) (df : DF ℚ) :
    Except String (DF ℚ) × ModuleState :=
  let r := negativeone_one_normalize_checked df st.negOneDefault
  (r.1, { st with negOneDefault := r.2 })

/-- A call `standardize(df)` with `excluded_colnames` omitted. -/
noncomputable def standardize_omitted (st : ModuleState) (df : DF ℝ) :
    Except String (DF ℝ) × ModuleState :=
  let r := standardize_checked df st.stdDefault
  (r.1, { st with stdDefault := r.2 })

/-- A call `robust_standardize(df)` with `excluded_colnames` omitted. -/
def robust_standardize_omitted (st : ModuleState) (df : DF ℚ) :
    Except String (DF ℚ) × ModuleState :=
  let r := robust_standardize_checked df st.robustDefault
  (r.1, { st with robustDefault := r.2 })

/-- The scenario dataset of spec §8 over ℚ: columns `[id, ts, feat1, feat2]`,
rows `(1,"t0",0,10), (2,"t1",5,20), (3,"t2",10,30)`. -/
def scenarioDF : DF ℚ :=
  [("id", Col.num [1, 2, 3]), ("ts", Col.str ["t0", "t1", "t2"]),
   ("feat1", Col.num [0, 5, 10]), ("feat2", Col.num [10, 20, 30])]

/-- The same scenario dataset over ℝ (for `standardize`). -/
noncomputable def scenarioDFR : DF ℝ :=
  [("id", Col.num [1, 2, 3]), ("ts", Col.str ["t0", "t1", "t2"]),
   ("feat1", Col.num [0, 5, 10]), ("feat2", Col.num [10, 20, 30])]

/-- A dataframe whose only numeric column is caller-excluded: the numeric
block handed to the scaler is empty (2 rows, 0 columns). -/
def dfAllExcluded : DF ℚ :=
  [("id", Col.num [1, 2]), ("lbl", Col.str ["a", "b"])]

/-- The same dataframe over ℝ (for `standardize`). -/
noncomputable def dfAllExcludedR : DF ℝ :=
  [("id", Col.num [1, 2]), ("lbl", Col.str ["a", "b"])]

/-- First dataframe of the shared-default demonstration: its only column
`c` is non-numeric. -/
def dfShared1 : DF ℚ := [("c", Col.str ["x"])]

/-- Second dataframe of the shared-default demonstration: its only column
`c` is numeric. -/
def dfShared2 : DF ℚ := [("c", Col.num [1, 2])]

/-! ### Lemmas about column lookup and selection -/

@[simp]
theorem colnames_nil {α : Type} : colnames ([] : DF α) = [] := rfl

@[simp]
theorem colnames_cons {α : Type} (c : String × Col α) (df : DF α) :
    colnames (c :: df) = c.1 :: colnames df := rfl

@[simp]
theorem colnames_append {α : Type} (A B : DF α) :
    colnames (A ++ B) = colnames A ++ colnames B := by
  simp [colnames]

theorem lookupCol_eq_some_of_mem {α : Type} {df : DF α} {n : String} {c : Col α}
    (hnd : (colnames df).Nodup) (hmem : (n, c) ∈ df) : lookupCol df n = some c := by
  induction df with
  | nil => cases hmem
  | cons d df ih =>
    rw [colnames_cons, List.nodup_cons] at hnd
    rcases List.mem_cons.mp hmem with h | h
    · subst h; simp [lookupCol]
    · have hne : d.1 ≠ n := by
        intro he
        exact hnd.1 (he ▸ List.mem_map_of_mem Prod.fst h)
      simp only [lookupCol, if_neg hne]
      exact ih hnd.2 h

theorem mem_of_lookupCol {α : Type} {df : DF α} {n : String} {c : Col α}
    (h : lookupCol df n = some c) : (n, c) ∈ df := by
  induction df with
  | nil => simp [lookupCol] at h
  | cons d df ih =>
    by_cases he : d.1 = n
    · simp only [lookupCol, if_pos he] at h
      obtain ⟨dn, dc⟩ := d
      simp only at he
      injection h with h2
      rw [← he, ← h2]
      exact List.mem_cons_self _ _
    · simp only [lookupCol, if_neg he] at h
      exact List.mem_cons_of_mem _ (ih h)

theorem lookupCol_eq_none_of_not_mem {α : Type} {df : DF α} {n : String}
    (h : n ∉ colnames df) : lookupCol df n = none := by
  induction df with
  | nil => rfl
  | cons d df ih =>
    rw [colnames_cons, List.mem_cons] at h
    push_neg at h
    have hne : d.1 ≠ n := fun he => h.1 he.symm
    simp only [lookupCol, if_neg hne]
    exact ih h.2

theorem lookupCol_append_left {α : Type} {A B : DF α} {n : String} {c : Col α}
    (h : lookupCol A n = some c) : lookupCol (A ++ B) n = some c := by
  induction A with
  | nil => simp [lookupCol] at h
  | cons d A ih =>
    by_cases he : d.1 = n
    · simp only [lookupCol, if_pos he] at h ⊢; exact h
    · simp only [List.cons_append, lookupCol, if_neg he] at h ⊢; exact ih h

theorem lookupCol_append_right {α : Type} {A B : DF α} {n : String}
    (h : lookupCol A n = none) : lookupCol (A ++ B) n = lookupCol B n := by
  induction A with
  | nil => rfl
  | cons d A ih =>
    by_cases he : d.1 = n
    · simp only [lookupCol, if_pos he] at h
      exact Option.noConfusion h
    · simp only [List.cons_append, lookupCol, if_neg he] at h ⊢; exact ih h

theorem selectCols_nil {α : Type} (df : DF α) : selectCols df [] = [] := rfl

theorem selectCols_cons {α : Type} (df : DF α) (m : String) (names : List String) :
    selectCols df (m :: names) =
      ((lookupCol df m).map fun col => (m, col)).toList ++ selectCols df names := by
  simp only [selectCols, List.filterMap_cons]
  cases lookupCol df m <;> simp

theorem selectCols_cons_of_not_mem {α : Type} {c : String × Col α} {df : DF α}
    {names : List String} (h : c.1 ∉ names) :
    selectCols (c :: df) names = selectCols df names := by
  induction names with
  | nil => rfl
  | cons m names ih =>
    rw [List.mem_cons] at h
    push_neg at h
    rw [selectCols_cons, selectCols_cons, ih h.2]
    have hlook : lookupCol (c :: df) m = lookupCol df m := by
      simp only [lookupCol, if_neg h.1]
    rw [hlook]

theorem lookupCol_selectCols {α : Type} {df : DF α} {names : List String}
    {n : String} {c : Col α} (hn : n ∈ names) (h : lookupCol df n = some c) :
    lookupCol (selectCols df names) n = some c := by
  induction names with
  | nil => cases hn
  | cons m names ih =>
    rw [selectCols_cons]
    rcases List.mem_cons.mp hn with rfl | hn2
    · rw [h]; simp [lookupCol]
    · cases hm : lookupCol df m with
      | none => simpa using ih hn2
      | some colm =>
        by_cases he : m = n
        · subst he; rw [hm] at h
          obtain rfl := Option.some_injective _ h
          simp [lookupCol]
        · simp only [Option.map_some, Option.toList_some, List.cons_append,
            lookupCol, if_neg he]
          exact ih hn2

theorem lookupCol_selectCols_none {α : Type} {df : DF α} {names : List String}
    {n : String} (hn : n ∉ names) : lookupCol (selectCols df names) n = none := by
  induction names with
  | nil => rfl
  | cons m names ih =>
    rw [List.mem_cons] at hn
    push_neg at hn
    have hne : m ≠ n := fun he => hn.1 he.symm
    rw [selectCols_cons]
    cases lookupCol df m with
    | none => simpa using ih hn.2
    | some colm =>
      simp only [Option.map_some, Option.toList_some, List.cons_append,
        lookupCol, if_neg hne]
      exact ih hn.2

theorem colnames_selectCols {α : Type} (df : DF α) (names : List String) :
    colnames (selectCols df names) =
      names.filter fun n => (lookupCol df n).isSome := by
  induction names with
  | nil => rfl
  | cons m names ih =>
    rw [selectCols_cons, List.filter_cons]
    cases lookupCol df m with
    | none => simpa using ih
    | some colm => simp [ih]

theorem selectCols_filter_colnames {α : Type} (df : DF α) (p : String → Bool)
    (hnd : (colnames df).Nodup) :
    selectCols df ((colnames df).filter p) = df.filter fun c => p c.1 := by
  induction df with
  | nil => rfl
  | cons c df ih =>
    rw [colnames_cons, List.nodup_cons] at hnd
    have hnotmem : c.1 ∉ (colnames df).filter p :=
      fun h => hnd.1 (List.mem_of_mem_filter h)
    rw [colnames_cons, List.filter_cons, List.filter_cons]
    by_cases hp : p c.1
    · rw [if_pos hp, if_pos hp, selectCols_cons]
      have hlook : lookupCol (c :: df) c.1 = some c.2 := by
        simp [lookupCol]
      rw [hlook, selectCols_cons_of_not_mem hnotmem, ih hnd.2]
      rfl
    · rw [if_neg hp, if_neg hp, selectCols_cons_of_not_mem hnotmem, ih hnd.2]

theorem lookupCol_mapCols_filter {α : Type} {df : DF α}
    {q : String × Col α → Bool} {g : Col α → Col α} {n : String} {c : Col α}
    (hnd : (colnames df).Nodup) (hmem : (n, c) ∈ df) (hq : q (n, c) = true) :
    lookupCol ((df.filter q).map fun x => (x.1, g x.2)) n = some (g c) := by
  induction df with
  | nil => cases hmem
  | cons d df ih =>
    rw [colnames_cons, List.nodup_cons] at hnd
    rcases List.mem_cons.mp hmem with h | h
    · subst h
      rw [List.filter_cons, if_pos hq]
      simp [lookupCol]
    · have hne : d.1 ≠ n := by
        intro he
        exact hnd.1 (he ▸ List.mem_map_of_mem Prod.fst h)
      rw [List.filter_cons]
      by_cases hd : q d
      · rw [if_pos hd]
        simp only [List.map_cons, lookupCol, if_neg hne]
        exact ih hnd.2 h
      · rw [if_neg hd]
        exact ih hnd.2 h

theorem unique_col_of_nodup {α : Type} {df : DF α} {n : String} {c c' : Col α}
    (hnd : (colnames df).Nodup) (h : (n, c) ∈ df) (h' : (n, c') ∈ df) : c = c' := by
  have h1 := lookupCol_eq_some_of_mem hnd h
  have h2 := lookupCol_eq_some_of_mem hnd h'
  rw [h1] at h2
  exact Option.some_injective _ h2

theorem lookupCol_isSome_of_mem {α : Type} {df : DF α} {n : String}
    (h : n ∈ colnames df) : (lookupCol df n).isSome := by
  induction df with
  | nil => cases h
  | cons d df ih =>
    by_cases he : d.1 = n
    · simp [lookupCol, he]
    · rw [colnames_cons, List.mem_cons] at h
      rcases h with h | h
      · exact absurd h.symm he
      · simp [lookupCol, if_neg he, ih h]

theorem mem_selectCols {α : Type} {df : DF α} {names : List String}
    {c : String × Col α} (h : c ∈ selectCols df names) : c ∈ df := by
  obtain ⟨n, hn, hc⟩ := List.mem_filterMap.mp h
  obtain ⟨col, hcol, hrfl⟩ := Option.map_eq_some'.mp hc
  rw [← hrfl]
  exact mem_of_lookupCol hcol

/-! ### Structure of `normalizeWith` -/

theorem normalizeWith_snd {α : Type} (s : List α → List α) (df : DF α)
    (ex : List String) :
    (normalizeWith s df ex).2 =
      ex ++ colnames (selectNonNumeric (selectCols df (candidateNames df ex))) := rfl

theorem normalizeWith_fst {α : Type} (s : List α → List α) (df : DF α)
    (ex : List String) :
    (normalizeWith s df ex).1 =
      selectCols df ((normalizeWith s df ex).2) ++
        (selectNumeric (selectCols df (candidateNames df ex))).map
          (fun c => (c.1, Col.num (s c.2.numVals))) := rfl

theorem df_numeric_filter {α : Type} (df : DF α) (ex : List String)
    (hnd : (colnames df).Nodup) :
    selectNumeric (selectCols df (candidateNames df ex)) =
      df.filter fun c => c.2.isNum && decide (c.1 ∉ ex) := by
  rw [candidateNames, selectCols_filter_colnames df _ hnd, selectNumeric,
    List.filter_filter]

theorem df_nonNumeric_filter {α : Type} (df : DF α) (ex : List String)
    (hnd : (colnames df).Nodup) :
    selectNonNumeric (selectCols df (candidateNames df ex)) =
      df.filter fun c => !c.2.isNum && decide (c.1 ∉ ex) := by
  rw [candidateNames, selectCols_filter_colnames df _ hnd, selectNonNumeric,
    List.filter_filter]

theorem normalizeWith_snd_eq {α : Type} (s : List α → List α) {df : DF α}
    {ex : List String} (hnd : (colnames df).Nodup) :
    (normalizeWith s df ex).2 = ex ++ nonNumericCandidateNames df ex := by
  rw [normalizeWith_snd, df_nonNumeric_filter df ex hnd]
  rfl

theorem not_mem_snd_of_numeric {α : Type} {s : List α → List α} {df : DF α}
    {ex : List String} {n : String} {vs : List α}
    (hnd : (colnames df).Nodup) (hmem : (n, Col.num vs) ∈ df) (hex : n ∉ ex) :
    n ∉ (normalizeWith s df ex).2 := by
  rw [normalizeWith_snd_eq s hnd]
  intro h
  rcases List.mem_append.mp h with h | h
  · exact hex h
  · rw [nonNumericCandidateNames] at h
    obtain ⟨c, hc, hceq⟩ := List.mem_map.mp h
    obtain ⟨cn, cc⟩ := c
    have hcf := List.mem_filter.mp hc
    simp only at hceq
    subst hceq
    have hcc := unique_col_of_nodup hnd hcf.1 hmem
    subst hcc
    simp [Col.isNum] at hcf

theorem normalizeWith_lookup_excluded {α : Type} {s : List α → List α}
    {df : DF α} {ex : List String} {n : String} {c : Col α}
    (hnd : (colnames df).Nodup) (hn : n ∈ (normalizeWith s df ex).2)
    (hmem : (n, c) ∈ df) :
    lookupCol (normalizeWith s df ex).1 n = some c := by
  rw [normalizeWith_fst]
  exact lookupCol_append_left
    (lookupCol_selectCols hn (lookupCol_eq_some_of_mem hnd hmem))

theorem normalizeWith_lookup_numeric {α : Type} {s : List α → List α}
    {df : DF α} {ex : List String} {n : String} {vs : List α}
    (hnd : (colnames df).Nodup) (hmem : (n, Col.num vs) ∈ df) (hex : n ∉ ex) :
    lookupCol (normalizeWith s df ex).1 n = some (Col.num (s vs)) := by
  have hn2 := not_mem_snd_of_numeric (s := s) hnd hmem hex
  rw [normalizeWith_fst]
  rw [lookupCol_append_right (lookupCol_selectCols_none hn2)]
  rw [df_numeric_filter df ex hnd]
  exact lookupCol_mapCols_filter (g := fun col => Col.num (s col.numVals)) hnd hmem
    (by simp [Col.isNum, hex])

theorem normalizeWith_sizes {α : Type} {s : List α → List α} {df : DF α}
    {ex : List String} {nrows : Nat}
    (hlen : ∀ xs, (s xs).length = xs.length)
    (hu : ∀ c ∈ df, Col.size c.2 = nrows) :
    ∀ c ∈ (normalizeWith s df ex).1, Col.size c.2 = nrows := by
  intro c hc
  rw [normalizeWith_fst] at hc
  rcases List.mem_append.mp hc with h | h
  · exact hu c (mem_selectCols h)
  · obtain ⟨d, hd, hde⟩ := List.mem_map.mp h
    have hdnum : d.2.isNum := (List.mem_filter.mp hd).2
    have hddf : d ∈ df := mem_selectCols (List.mem_of_mem_filter hd)
    obtain ⟨dn, dc⟩ := d
    cases dc with
    | num v =>
      rw [← hde]
      have := hu (dn, Col.num v) hddf
      simp only [Col.size] at this ⊢
      simp [Col.numVals, hlen, this]
    | str v => simp [Col.isNum] at hdnum

theorem normalizeWithChecked_fst {α : Type} (s : List α → List α) (df : DF α)
    (ex : List String) :
    (normalizeWithChecked s df ex).1 =
      match scalerCheck (selectNumeric (selectCols df (candidateNames df ex)))
          (rowCount df) with
      | .error e => Except.error e
      | .ok _ => Except.ok (normalizeWith s df ex).1 := rfl

theorem normalizeWithChecked_snd {α : Type} (s : List α → List α) (df : DF α)
    (ex : List String) :
    (normalizeWithChecked s df ex).2 = (normalizeWith s df ex).2 := rfl

theorem normalizeWithChecked_ok {α : Type} (s : List α → List α) {df : DF α}
    {ex : List String}
    (h : scalerCheck (selectNumeric (selectCols df (candidateNames df ex)))
      (rowCount df) = Except.ok ()) :
    (normalizeWithChecked s df ex).1 = Except.ok (normalizeWith s df ex).1 := by
  rw [normalizeWithChecked_fst, h]

theorem df_numeric_empty {α : Type} {df : DF α} {ex : List String}
    (hnd : (colnames df).Nodup)
    (hall : ∀ n vs, (n, Col.num vs) ∈ df → n ∈ ex) :
    selectNumeric (selectCols df (candidateNames df ex)) = [] := by
  rw [df_numeric_filter df ex hnd, List.filter_eq_nil_iff]
  rintro ⟨cn, cc⟩ hc
  cases cc with
  | num v => simp [Col.isNum, hall cn v hc]
  | str v => simp [Col.isNum]

theorem normalizeWithChecked_error {α : Type} {s : List α → List α}
    {df : DF α} {ex : List String} (hnd : (colnames df).Nodup)
    (hall : ∀ n vs, (n, Col.num vs) ∈ df → n ∈ ex) :
    ∃ e, (normalizeWithChecked s df ex).1 = Except.error e := by
  have hempty := df_numeric_empty hnd hall
  by_cases hr : rowCount df = 0
  · refine ⟨"ValueError: Found array with 0 sample(s)", ?_⟩
    rw [normalizeWithChecked_fst, hempty]
    unfold scalerCheck
    rw [if_pos hr]
  · refine ⟨"ValueError: Found array with 0 feature(s)", ?_⟩
    rw [normalizeWithChecked_fst, hempty]
    unfold scalerCheck
    rw [if_neg hr]
    rfl

theorem colnames_normalizeWith {α : Type} {s : List α → List α} {df : DF α}
    {ex : List String} (hnd : (colnames df).Nodup) (hsub : ex ⊆ colnames df) :
    colnames (normalizeWith s df ex).1 =
      ex ++ nonNumericCandidateNames df ex ++ numericNames df ex := by
  rw [normalizeWith_fst, colnames_append, colnames_selectCols]
  have hsub2 : ∀ n ∈ (normalizeWith s df ex).2, ((lookupCol df n).isSome : Bool) := by
    intro n hn
    rw [normalizeWith_snd_eq s hnd] at hn
    rcases List.mem_append.mp hn with h | h
    · exact lookupCol_isSome_of_mem (hsub h)
    · rw [nonNumericCandidateNames] at h
      obtain ⟨c, hc, hceq⟩ := List.mem_map.mp h
      exact lookupCol_isSome_of_mem
        (hceq ▸ List.mem_map_of_mem Prod.fst (List.mem_of_mem_filter hc))
  rw [List.filter_eq_self.mpr hsub2, normalizeWith_snd_eq s hnd,
    df_numeric_filter df ex hnd]
  congr 1
  simp only [colnames, numericNames, List.map_map]
  rfl

theorem colnames_normalizeWith_perm {α : Type} {s : List α → List α} {df : DF α}
    {ex : List String} (hnd : (colnames df).Nodup) (hexnd : ex.Nodup)
    (hsub : ex ⊆ colnames df) :
    (colnames (normalizeWith s df ex).1).Perm (colnames df) := by
  rw [colnames_normalizeWith hnd hsub]
  have h1 : ((colnames df).filter (fun n => decide (n ∈ ex)) ++
      (colnames df).filter (fun n => !decide (n ∈ ex))).Perm (colnames df) :=
    List.filter_append_perm _ _
  have h2 : ex.Perm ((colnames df).filter (fun n => decide (n ∈ ex))) := by
    rw [List.perm_ext_iff_of_nodup hexnd (hnd.filter _)]
    intro a
    simp only [List.mem_filter, decide_eq_true_eq]
    exact ⟨fun h => ⟨hsub h, h⟩, And.right⟩
  have h3 : (colnames df).filter (fun n => !decide (n ∈ ex)) = candidateNames df ex := by
    rw [candidateNames]
    exact List.filter_congr fun n _ => by simp
  have h4 : candidateNames df ex =
      colnames (df.filter fun c => decide (c.1 ∉ ex)) := by
    rw [candidateNames, colnames, colnames, List.filter_map]
    rfl
  have h5 : ((df.filter fun c => decide (c.1 ∉ ex)).filter (fun c => c.2.isNum) ++
      (df.filter fun c => decide (c.1 ∉ ex)).filter (fun c => !c.2.isNum)).Perm
      (df.filter fun c => decide (c.1 ∉ ex)) :=
    List.filter_append_perm _ _
  have h6 : (numericNames df ex ++ nonNumericCandidateNames df ex).Perm
      (candidateNames df ex) := by
    rw [h4, numericNames, nonNumericCandidateNames, ← List.filter_filter,
      ← List.filter_filter, colnames, ← List.map_append]
    exact h5.map Prod.fst
  rw [List.append_assoc]
  have ha : (nonNumericCandidateNames df ex ++ numericNames df ex).Perm
      (candidateNames df ex) := List.Perm.trans List.perm_append_comm h6
  have hb : (ex ++ (nonNumericCandidateNames df ex ++ numericNames df ex)).Perm
      ((colnames df).filter (fun n => decide (n ∈ ex)) ++ candidateNames df ex) :=
    List.Perm.append h2 ha
  have hc : ((colnames df).filter (fun n => decide (n ∈ ex)) ++
      candidateNames df ex).Perm (colnames df) := by
    rw [← h3]; exact h1
  exact hb.trans hc

/-! ### Properties of the min-max scaler -/

theorem foldl_min_le_init (xs : List ℚ) (a : ℚ) : xs.foldl min a ≤ a := by
  induction xs generalizing a with
  | nil => exact le_refl a
  | cons x xs ih => exact le_trans (ih (min a x)) (min_le_left a x)

theorem foldl_min_le_mem {xs : List ℚ} {x : ℚ} (hx : x ∈ xs) (a : ℚ) :
    xs.foldl min a ≤ x := by
  induction xs generalizing a with
  | nil => cases hx
  | cons y xs ih =>
    rcases List.mem_cons.mp hx with rfl | h
    · exact le_trans (foldl_min_le_init xs (min a x)) (min_le_right a x)
    · exact ih h (min a y)

theorem listMin_le {xs : List ℚ} {x : ℚ} (hx : x ∈ xs) : listMin xs ≤ x := by
  cases xs with
  | nil => cases hx
  | cons y ys =>
    rcases List.mem_cons.mp hx with rfl | h
    · exact foldl_min_le_init ys x
    · exact foldl_min_le_mem h y

theorem init_le_foldl_max (xs : List ℚ) (a : ℚ) : a ≤ xs.foldl max a := by
  induction xs generalizing a with
  | nil => exact le_refl a
  | cons x xs ih => exact le_trans (le_max_left a x) (ih (max a x))

theorem mem_le_foldl_max {xs : List ℚ} {x : ℚ} (hx : x ∈ xs) (a : ℚ) :
    x ≤ xs.foldl max a := by
  induction xs generalizing a with
  | nil => cases hx
  | cons y xs ih =>
    rcases List.mem_cons.mp hx with rfl | h
    · exact le_trans (le_max_right a x) (init_le_foldl_max xs (max a x))
    · exact ih h (max a y)

theorem le_listMax {xs : List ℚ} {x : ℚ} (hx : x ∈ xs) : x ≤ listMax xs := by
  cases xs with
  | nil => cases hx
  | cons y ys =>
    rcases List.mem_cons.mp hx with rfl | h
    · exact init_le_foldl_max ys x
    · exact mem_le_foldl_max h y

theorem foldl_min_mem (xs : List ℚ) (a : ℚ) :
    xs.foldl min a = a ∨ xs.foldl min a ∈ xs := by
  induction xs generalizing a with
  | nil => exact Or.inl rfl
  | cons x xs ih =>
    rcases ih (min a x) with h | h
    · rcases min_choice a x with hm | hm
      · exact Or.inl (by rw [List.foldl_cons, h, hm])
      · exact Or.inr (by rw [List.foldl_cons, h, hm]; exact List.mem_cons_self _ _)
    · exact Or.inr (List.mem_cons_of_mem _ h)

theorem listMin_mem {xs : List ℚ} (h : xs ≠ []) : listMin xs ∈ xs := by
  cases xs with
  | nil => exact absurd rfl h
  | cons x ys =>
    rcases foldl_min_mem ys x with h1 | h1
    · rw [listMin, h1]; exact List.mem_cons_self _ _
    · rw [listMin]; exact List.mem_cons_of_mem _ h1

theorem foldl_max_mem (xs : List ℚ) (a : ℚ) :
    xs.foldl max a = a ∨ xs.foldl max a ∈ xs := by
  induction xs generalizing a with
  | nil => exact Or.inl rfl
  | cons x xs ih =>
    rcases ih (max a x) with h | h
    · rcases max_choice a x with hm | hm
      · exact Or.inl (by rw [List.foldl_cons, h, hm])
      · exact Or.inr (by rw [List.foldl_cons, h, hm]; exact List.mem_cons_self _ _)
    · exact Or.inr (List.mem_cons_of_mem _ h)

theorem listMax_mem {xs : List ℚ} (h : xs ≠ []) : listMax xs ∈ xs := by
  cases xs with
  | nil => exact absurd rfl h
  | cons x ys =>
    rcases foldl_max_mem ys x with h1 | h1
    · rw [listMax, h1]; exact List.mem_cons_self _ _
    · rw [listMax]; exact List.mem_cons_of_mem _ h1

theorem minMaxPoint_zero_one {xs : List ℚ} {x : ℚ} (h : listMin xs < listMax xs) :
    minMaxPoint 0 1 xs x = (x - listMin xs) / (listMax xs - listMin xs) := by
  have hne : listMax xs - listMin xs ≠ 0 := sub_ne_zero.mpr (ne_of_gt h)
  rw [minMaxPoint, handle_zeros, if_neg hne]
  field_simp
  ring

theorem minMaxScale_zero_one {xs : List ℚ} (h : listMin xs < listMax xs) :
    minMaxScale 0 1 xs =
      xs.map fun x => (x - listMin xs) / (listMax xs - listMin xs) := by
  rw [minMaxScale]
  congr 1
  funext x
  exact minMaxPoint_zero_one h

theorem zero_one_bounds {xs : List ℚ} {x : ℚ} (hmem : x ∈ xs)
    (h : listMin xs < listMax xs) :
    0 ≤ (x - listMin xs) / (listMax xs - listMin xs) ∧
      (x - listMin xs) / (listMax xs - listMin xs) ≤ 1 := by
  have hpos : 0 < listMax xs - listMin xs := sub_pos.mpr h
  refine ⟨div_nonneg (sub_nonneg.mpr (listMin_le hmem)) (le_of_lt hpos), ?_⟩
  rw [div_le_one hpos]
  exact sub_le_sub_right (le_listMax hmem) _

theorem minMaxPoint_negone_one {xs : List ℚ} {x : ℚ} (h : listMin xs < listMax xs) :
    minMaxPoint (-1) 1 xs x =
      2 * (x - listMin xs) / (listMax xs - listMin xs) - 1 := by
  have hne : listMax xs - listMin xs ≠ 0 := sub_ne_zero.mpr (ne_of_gt h)
  rw [minMaxPoint, handle_zeros, if_neg hne]
  field_simp
  ring

theorem minMaxScale_negone_one {xs : List ℚ} (h : listMin xs < listMax xs) :
    minMaxScale (-1) 1 xs =
      xs.map fun x => 2 * (x - listMin xs) / (listMax xs - listMin xs) - 1 := by
  rw [minMaxScale]
  congr 1
  funext x
  exact minMaxPoint_negone_one h

theorem negone_one_bounds {xs : List ℚ} {x : ℚ} (hmem : x ∈ xs)
    (h : listMin xs < listMax xs) :
    -1 ≤ 2 * (x - listMin xs) / (listMax xs - listMin xs) - 1 ∧
      2 * (x - listMin xs) / (listMax xs - listMin xs) - 1 ≤ 1 := by
  have hb := zero_one_bounds hmem h
  have h2 : 2 * (x - listMin xs) / (listMax xs - listMin xs) =
      2 * ((x - listMin xs) / (listMax xs - listMin xs)) := by ring
  rw [h2]
  constructor <;> nlinarith [hb.1, hb.2]

/-! ### Properties of the standard scaler -/

theorem length_stdScale (xs : List ℝ) : (stdScale xs).length = xs.length :=
  List.length_map xs (stdPoint xs)

theorem popVar_nonneg (xs : List ℝ) : 0 ≤ popVar xs := by
  rw [popVar]
  refine div_nonneg (List.sum_nonneg ?_) (Nat.cast_nonneg _)
  intro y hy
  obtain ⟨x, hx, hre⟩ := List.mem_map.mp hy
  rw [← hre]
  positivity

theorem stdScale_eq {xs : List ℝ} (hv : popVar xs ≠ 0) :
    stdScale xs = xs.map fun x => (x - listMean xs) / Real.sqrt (popVar xs) := by
  have hvpos : 0 < popVar xs := lt_of_le_of_ne (popVar_nonneg xs) (Ne.symm hv)
  have hs : Real.sqrt (popVar xs) ≠ 0 := ne_of_gt (Real.sqrt_pos.mpr hvpos)
  rw [stdScale]
  congr 1
  funext x
  rw [stdPoint, handle_zerosR, if_neg hs]

theorem sum_map_sub_const (xs : List ℝ) (u : ℝ) :
    (xs.map fun x => x - u).sum = xs.sum - xs.length * u := by
  induction xs with
  | nil => simp
  | cons x xs ih =>
    simp only [List.map_cons, List.sum_cons, ih, List.length_cons]
    push_cast
    ring

theorem sum_map_div (xs : List ℝ) (f : ℝ → ℝ) (s : ℝ) :
    (xs.map fun x => f x / s).sum = (xs.map f).sum / s := by
  induction xs with
  | nil => simp
  | cons x xs ih =>
    simp only [List.map_cons, List.sum_cons, ih]
    ring

theorem popVar_ne_zero_nonempty {xs : List ℝ} (hv : popVar xs ≠ 0) : xs ≠ [] := by
  rintro rfl
  simp [popVar] at hv

theorem listMean_stdScale {xs : List ℝ} (hv : popVar xs ≠ 0) :
    listMean (stdScale xs) = 0 := by
  have hne : xs ≠ [] := popVar_ne_zero_nonempty hv
  have hn : (xs.length : ℝ) ≠ 0 :=
    Nat.cast_ne_zero.mpr (fun h0 => hne (List.length_eq_zero.mp h0))
  rw [stdScale_eq hv, listMean, List.length_map,
    sum_map_div xs (fun x => x - listMean xs) (Real.sqrt (popVar xs)),
    sum_map_sub_const xs (listMean xs), listMean]
  have hcancel : (xs.length : ℝ) * (xs.sum / xs.length) = xs.sum := by
    field_simp
  rw [hcancel, sub_self, zero_div, zero_div]

theorem popVar_stdScale {xs : List ℝ} (hv : popVar xs ≠ 0) :
    popVar (stdScale xs) = 1 := by
  have hvpos : 0 < popVar xs := lt_of_le_of_ne (popVar_nonneg xs) (Ne.symm hv)
  have hne : xs ≠ [] := popVar_ne_zero_nonempty hv
  have hn : (xs.length : ℝ) ≠ 0 :=
    Nat.cast_ne_zero.mpr (fun h0 => hne (List.length_eq_zero.mp h0))
  have hs2 : Real.sqrt (popVar xs) ^ 2 = popVar xs := Real.sq_sqrt (le_of_lt hvpos)
  have hmean := listMean_stdScale hv
  rw [popVar, hmean]
  rw [stdScale_eq hv] at *
  rw [List.map_map, List.length_map]
  have hfun : ((fun y => (y - 0) ^ 2) ∘
      fun x => (x - listMean xs) / Real.sqrt (popVar xs)) =
      fun x => ((x - listMean xs) ^ 2) / popVar xs := by
    funext x
    simp only [Function.comp_apply, sub_zero, div_pow, hs2]
  rw [hfun, sum_map_div xs (fun x => (x - listMean xs) ^ 2) (popVar xs)]
  have hsum : (xs.map fun x => (x - listMean xs) ^ 2).sum =
      popVar xs * xs.length := by
    rw [popVar]
    field_simp
  rw [hsum]
  field_simp

theorem stdScale_column {df : DF ℝ} {ex : List String} {n : String} {vs : List ℝ}
    (hnd : (colnames df).Nodup) (hmem : (n, Col.num vs) ∈ df) (hex : n ∉ ex)
    (hv : popVar vs ≠ 0) :
    lookupCol (standardize df ex).1 n = some (Col.num (stdScale vs)) ∧
      listMean (stdScale vs) = 0 ∧ popVar (stdScale vs) = 1 ∧
      Real.sqrt (popVar (stdScale vs)) = 1 :=
  ⟨normalizeWith_lookup_numeric hnd hmem hex, listMean_stdScale hv,
    popVar_stdScale hv, by rw [popVar_stdScale hv, Real.sqrt_one]⟩

/-! ### Claims -/

/-- C1: for every input dataframe, every numeric non-excluded column `vs`
with `min < max` is mapped by `zero_one_normalize` to
`(x - min) / (max - min)` pointwise; all resulting values lie in `[0, 1]`,
and the column attains both `min` (mapped to 0) and `max` (mapped to 1).
On the scenario dataset with `excluded_colnames = ["id", "ts"]`, `feat1`
and `feat2` both become `[0, 1/2, 1]` and `id`, `ts` are unchanged. -/
theorem zero_one_normalize_range :
    (∀ (df : DF ℚ) (ex : List String) (n : String) (vs : List ℚ),
        (colnames df).Nodup → (n, Col.num vs) ∈ df → n ∉ ex →
        listMin vs < listMax vs →
        lookupCol (zero_one_normalize df ex).1 n =
          some (Col.num (vs.map fun x =>
            (x - listMin vs) / (listMax vs - listMin vs))) ∧
        (∀ x ∈ vs, 0 ≤ (x - listMin vs) / (listMax vs - listMin vs) ∧
          (x - listMin vs) / (listMax vs - listMin vs) ≤ 1) ∧
        listMin vs ∈ vs ∧ listMax vs ∈ vs ∧
        (listMin vs - listMin vs) / (listMax vs - listMin vs) = 0 ∧
        (listMax vs - listMin vs) / (listMax vs - listMin vs) = 1) ∧
    (zero_one_normalize scenarioDF ["id", "ts"]).1 =
      [("id", Col.num [1, 2, 3]), ("ts", Col.str ["t0", "t1", "t2"]),
       ("feat1", Col.num [0, 1/2, 1]), ("feat2", Col.num [0, 1/2, 1])] := by
  constructor
  · intro df ex n vs hnd hmem hex hlt
    have hnonempty : vs ≠ [] := by
      rintro rfl
      simp [listMin, listMax] at hlt
    have hlook := normalizeWith_lookup_numeric (s := minMaxScale 0 1) hnd hmem hex
    rw [minMaxScale_zero_one hlt] at hlook
    exact ⟨hlook, fun x hx => zero_one_bounds hx hlt, listMin_mem hnonempty,
      listMax_mem hnonempty, by simp,
      div_self (sub_ne_zero.mpr (ne_of_gt hlt))⟩
  · simp +decide [zero_one_normalize, normalizeWith, scenarioDF, colnames,
      selectCols, selectNumeric, selectNonNumeric, lookupCol, Col.isNum,
      Col.numVals, minMaxScale, minMaxPoint, listMin, listMax, handle_zeros]
    norm_num

/-- Witness for C1: the general statement applied to the scenario dataset
at column `feat1`. -/
theorem zero_one_normalize_range_witness :
    lookupCol (zero_one_normalize scenarioDF ["id", "ts"]).1 "feat1" =
      some (Col.num ([0, 5, 10].map fun x =>
        (x - listMin [0, 5, 10]) / (listMax [0, 5, 10] - listMin [0, 5, 10]))) ∧
    (∀ x ∈ [(0:ℚ), 5, 10],
        0 ≤ (x - listMin [0, 5, 10]) / (listMax [0, 5, 10] - listMin [0, 5, 10]) ∧
        (x - listMin [0, 5, 10]) / (listMax [0, 5, 10] - listMin [0, 5, 10]) ≤ 1) ∧
    listMin [(0:ℚ), 5, 10] ∈ [(0:ℚ), 5, 10] ∧
    listMax [(0:ℚ), 5, 10] ∈ [(0:ℚ), 5, 10] ∧
    (listMin [(0:ℚ), 5, 10] - listMin [0, 5, 10]) /
        (listMax [0, 5, 10] - listMin [0, 5, 10]) = 0 ∧
    (listMax [(0:ℚ), 5, 10] - listMin [0, 5, 10]) /
        (listMax [0, 5, 10] - listMin [0, 5, 10]) = 1 :=
  zero_one_normalize_range.1 scenarioDF ["id", "ts"] "feat1" [0, 5, 10]
    (by decide) (by decide) (by decide) (by decide)

/-- C8: for every input dataframe, every numeric non-excluded column `vs`
with `min < max` is mapped by `negativeone_one_normalize` to
`2 * (x - min) / (max - min) - 1` pointwise; all resulting values lie in
`[-1, 1]`, and the column attains both `min` (mapped to -1) and `max`
(mapped to 1). -/
theorem negativeone_one_normalize_range :
    ∀ (df : DF ℚ) (ex : List String) (n : String) (vs : List ℚ),
      (colnames df).Nodup → (n, Col.num vs) ∈ df → n ∉ ex →
      listMin vs < listMax vs →
      lookupCol (negativeone_one_normalize df ex).1 n =
        some (Col.num (vs.map fun x =>
          2 * (x - listMin vs) / (listMax vs - listMin vs) - 1)) ∧
      (∀ x ∈ vs, -1 ≤ 2 * (x - listMin vs) / (listMax vs - listMin vs) - 1 ∧
        2 * (x - listMin vs) / (listMax vs - listMin vs) - 1 ≤ 1) ∧
      listMin vs ∈ vs ∧ listMax vs ∈ vs ∧
      2 * (listMin vs - listMin vs) / (listMax vs - listMin vs) - 1 = -1 ∧
      2 * (listMax vs - listMin vs) / (listMax vs - listMin vs) - 1 = 1 := by
  intro df ex n vs hnd hmem hex hlt
  have hnonempty : vs ≠ [] := by
    rintro rfl
    simp [listMin, listMax] at hlt
  have hne : listMax vs - listMin vs ≠ 0 := sub_ne_zero.mpr (ne_of_gt hlt)
  have hlook := normalizeWith_lookup_numeric (s := minMaxScale (-1) 1) hnd hmem hex
  rw [minMaxScale_negone_one hlt] at hlook
  refine ⟨hlook, fun x hx => negone_one_bounds hx hlt, listMin_mem hnonempty,
    listMax_mem hnonempty, by simp, ?_⟩
  rw [mul_div_assoc, div_self hne]
  ring

/-- Witness for C8: the general statement applied to the scenario dataset
at column `feat2`. -/
theorem negativeone_one_normalize_range_witness :
    lookupCol (negativeone_one_normalize scenarioDF ["id", "ts"]).1 "feat2" =
      some (Col.num ([10, 20, 30].map fun x =>
        2 * (x - listMin [10, 20, 30]) /
          (listMax [10, 20, 30] - listMin [10, 20, 30]) - 1)) ∧
    (∀ x ∈ [(10:ℚ), 20, 30],
        -1 ≤ 2 * (x - listMin [10, 20, 30]) /
          (listMax [10, 20, 30] - listMin [10, 20, 30]) - 1 ∧
        2 * (x - listMin [10, 20, 30]) /
          (listMax [10, 20, 30] - listMin [10, 20, 30]) - 1 ≤ 1) ∧
    listMin [(10:ℚ), 20, 30] ∈ [(10:ℚ), 20, 30] ∧
    listMax [(10:ℚ), 20, 30] ∈ [(10:ℚ), 20, 30] ∧
    2 * (listMin [(10:ℚ), 20, 30] - listMin [10, 20, 30]) /
        (listMax [10, 20, 30] - listMin [10, 20, 30]) - 1 = -1 ∧
    2 * (listMax [(10:ℚ), 20, 30] - listMin [10, 20, 30]) /
        (listMax [10, 20, 30] - listMin [10, 20, 30]) - 1 = 1 :=
  negativeone_one_normalize_range scenarioDF ["id", "ts"] "feat2" [10, 20, 30]
    (by decide) (by decide) (by decide) (by decide)

/-- C3: for all four operations, every excluded column — caller-named or
reclassified as non-numeric (i.e., any name in the final excluded list) —
appears in the output with its values identical to the input, row for row. -/
theorem excluded_passthrough :
    (∀ (df : DF ℚ) (ex : List String) (n : String) (c : Col ℚ),
        (colnames df).Nodup → n ∈ (zero_one_normalize df ex).2 → (n, c) ∈ df →
        lookupCol (zero_one_normalize df ex).1 n = some c) ∧
    (∀ (df : DF ℚ) (ex : List String) (n : String) (c : Col ℚ),
        (colnames df).Nodup → n ∈ (negativeone_one_normalize df ex).2 →
        (n, c) ∈ df →
        lookupCol (negativeone_one_normalize df ex).1 n = some c) ∧
    (∀ (df : DF ℝ) (ex : List String) (n : String) (c : Col ℝ),
        (colnames df).Nodup → n ∈ (standardize df ex).2 → (n, c) ∈ df →
        lookupCol (standardize df ex).1 n = some c) ∧
    (∀ (df : DF ℚ) (ex : List String) (n : String) (c : Col ℚ),
        (colnames df).Nodup → n ∈ (robust_standardize df ex).2 → (n, c) ∈ df →
        lookupCol (robust_standardize df ex).1 n = some c) :=
  ⟨fun _ _ _ _ hnd hn hmem => normalizeWith_lookup_excluded hnd hn hmem,
    fun _ _ _ _ hnd hn hmem => normalizeWith_lookup_excluded hnd hn hmem,
    fun _ _ _ _ hnd hn hmem => normalizeWith_lookup_excluded hnd hn hmem,
    fun _ _ _ _ hnd hn hmem => normalizeWith_lookup_excluded hnd hn hmem⟩

/-- Witness for C3: on the scenario dataset, each of the four operations
returns the excluded columns `id` (numeric) and `ts` (non-numeric) with
their input values. -/
theorem excluded_passthrough_witness :
    lookupCol (zero_one_normalize scenarioDF ["id", "ts"]).1 "id" =
      some (Col.num [1, 2, 3]) ∧
    lookupCol (negativeone_one_normalize scenarioDF ["id", "ts"]).1 "ts" =
      some (Col.str ["t0", "t1", "t2"]) ∧
    lookupCol (standardize scenarioDFR ["id", "ts"]).1 "ts" =
      some (Col.str ["t0", "t1", "t2"]) ∧
    lookupCol (robust_standardize scenarioDF ["id", "ts"]).1 "id" =
      some (Col.num [1, 2, 3]) :=
  ⟨excluded_passthrough.1 scenarioDF ["id", "ts"] "id" (Col.num [1, 2, 3])
      (by decide) (by decide) (by decide),
    excluded_passthrough.2.1 scenarioDF ["id", "ts"] "ts"
      (Col.str ["t0", "t1", "t2"]) (by decide) (by decide) (by decide),
    excluded_passthrough.2.2.1 scenarioDFR ["id", "ts"] "ts"
      (Col.str ["t0", "t1", "t2"]) (by decide) (by decide)
      (by simp [scenarioDFR]),
    excluded_passthrough.2.2.2 scenarioDF ["id", "ts"] "id" (Col.num [1, 2, 3])
      (by decide) (by decide) (by decide)⟩

/-- C4: for all four operations, on a uniform dataframe with `nrows` rows
the output has exactly `nrows` rows in every column; every excluded column
carries the input row values at the same positions, and every transformed
numeric column is a pointwise map of the input column — rows are aligned by
position, none added, dropped, or reordered. -/
theorem row_alignment :
    (∀ (df : DF ℚ) (ex : List String) (nrows : Nat),
        (colnames df).Nodup → (∀ c ∈ df, Col.size c.2 = nrows) →
        (∀ c ∈ (zero_one_normalize df ex).1, Col.size c.2 = nrows) ∧
        (∀ (n : String) (c : Col ℚ), n ∈ (zero_one_normalize df ex).2 →
          (n, c) ∈ df → lookupCol (zero_one_normalize df ex).1 n = some c) ∧
        (∀ (n : String) (vs : List ℚ), (n, Col.num vs) ∈ df → n ∉ ex →
          ∃ f, lookupCol (zero_one_normalize df ex).1 n =
            some (Col.num (vs.map f)))) ∧
    (∀ (df : DF ℚ) (ex : List String) (nrows : Nat),
        (colnames df).Nodup → (∀ c ∈ df, Col.size c.2 = nrows) →
        (∀ c ∈ (negativeone_one_normalize df ex).1, Col.size c.2 = nrows) ∧
        (∀ (n : String) (c : Col ℚ), n ∈ (negativeone_one_normalize df ex).2 →
          (n, c) ∈ df →
          lookupCol (negativeone_one_normalize df ex).1 n = some c) ∧
        (∀ (n : String) (vs : List ℚ), (n, Col.num vs) ∈ df → n ∉ ex →
          ∃ f, lookupCol (negativeone_one_normalize df ex).1 n =
            some (Col.num (vs.map f)))) ∧
    (∀ (df : DF ℝ) (ex : List String) (nrows : Nat),
        (colnames df).Nodup → (∀ c ∈ df, Col.size c.2 = nrows) →
        (∀ c ∈ (standardize df ex).1, Col.size c.2 = nrows) ∧
        (∀ (n : String) (c : Col ℝ), n ∈ (standardize df ex).2 →
          (n, c) ∈ df → lookupCol (standardize df ex).1 n = some c) ∧
        (∀ (n : String) (vs : List ℝ), (n, Col.num vs) ∈ df → n ∉ ex →
          ∃ f, lookupCol (standardize df ex).1 n =
            some (Col.num (vs.map f)))) ∧
    (∀ (df : DF ℚ) (ex : List String) (nrows : Nat),
        (colnames df).Nodup → (∀ c ∈ df, Col.size c.2 = nrows) →
        (∀ c ∈ (robust_standardize df ex).1, Col.size c.2 = nrows) ∧
        (∀ (n : String) (c : Col ℚ), n ∈ (robust_standardize df ex).2 →
          (n, c) ∈ df → lookupCol (robust_standardize df ex).1 n = some c) ∧
        (∀ (n : String) (vs : List ℚ), (n, Col.num vs) ∈ df → n ∉ ex →
          ∃ f, lookupCol (robust_standardize df ex).1 n =
            some (Col.num (vs.map f)))) := by
  refine ⟨fun df ex nrows hnd hu => ⟨?_, ?_, ?_⟩,
    fun df ex nrows hnd hu => ⟨?_, ?_, ?_⟩,
    fun df ex nrows hnd hu => ⟨?_, ?_, ?_⟩,
    fun df ex nrows hnd hu => ⟨?_, ?_, ?_⟩⟩
  · exact normalizeWith_sizes (fun xs => List.length_map xs _) hu
  · exact fun n c hn hmem => normalizeWith_lookup_excluded hnd hn hmem
  · exact fun n vs hmem hex =>
      ⟨minMaxPoint 0 1 vs, normalizeWith_lookup_numeric hnd hmem hex⟩
  · exact normalizeWith_sizes (fun xs => List.length_map xs _) hu
  · exact fun n c hn hmem => normalizeWith_lookup_excluded hnd hn hmem
  · exact fun n vs hmem hex =>
      ⟨minMaxPoint (-1) 1 vs, normalizeWith_lookup_numeric hnd hmem hex⟩
  · exact normalizeWith_sizes (fun xs => List.length_map xs _) hu
  · exact fun n c hn hmem => normalizeWith_lookup_excluded hnd hn hmem
  · exact fun n vs hmem hex =>
      ⟨stdPoint vs, normalizeWith_lookup_numeric hnd hmem hex⟩
  · exact normalizeWith_sizes (fun xs => List.length_map xs _) hu
  · exact fun n c hn hmem => normalizeWith_lookup_excluded hnd hn hmem
  · exact fun n vs hmem hex =>
      ⟨robustPoint vs, normalizeWith_lookup_numeric hnd hmem hex⟩

/-- Witness for C4: for each operation on the scenario dataset (3 rows),
excluded column `id` keeps its values and `feat1` is mapped pointwise. -/
theorem row_alignment_witness :
    (lookupCol (zero_one_normalize scenarioDF ["id", "ts"]).1 "id" =
        some (Col.num [1, 2, 3]) ∧
      ∃ f, lookupCol (zero_one_normalize scenarioDF ["id", "ts"]).1 "feat1" =
        some (Col.num (([0, 5, 10] : List ℚ).map f))) ∧
    (∃ f, lookupCol (negativeone_one_normalize scenarioDF ["id", "ts"]).1
        "feat1" = some (Col.num (([0, 5, 10] : List ℚ).map f))) ∧
    (∃ f, lookupCol (standardize scenarioDFR ["id", "ts"]).1 "feat1" =
        some (Col.num (([0, 5, 10] : List ℝ).map f))) ∧
    (∃ f, lookupCol (robust_standardize scenarioDF ["id", "ts"]).1 "feat1" =
        some (Col.num (([0, 5, 10] : List ℚ).map f))) :=
  ⟨⟨(row_alignment.1 scenarioDF ["id", "ts"] 3 (by decide) (by decide)).2.1
        "id" (Col.num [1, 2, 3]) (by decide) (by decide),
    (row_alignment.1 scenarioDF ["id", "ts"] 3 (by decide) (by decide)).2.2
        "feat1" [0, 5, 10] (by decide) (by decide)⟩,
    (row_alignment.2.1 scenarioDF ["id", "ts"] 3 (by decide) (by decide)).2.2
        "feat1" [0, 5, 10] (by decide) (by decide),
    (row_alignment.2.2.1 scenarioDFR ["id", "ts"] 3
        (by simp [scenarioDFR, Col.size])
        (by simp [scenarioDFR, Col.size])).2.2
        "feat1" [0, 5, 10] (by simp [scenarioDFR]) (by decide),
    (row_alignment.2.2.2 scenarioDF ["id", "ts"] 3 (by decide) (by decide)).2.2
        "feat1" [0, 5, 10] (by decide) (by decide)⟩

/-- C5: for all four operations, the output column set equals the input
column set (as a permutation), and the output column order is: the caller's
excluded columns in list order, then the appended non-numeric candidate
columns, then the numeric columns in dataframe order. -/
theorem column_order :
    (∀ (df : DF ℚ) (ex : List String), (colnames df).Nodup → ex.Nodup →
        ex ⊆ colnames df →
        colnames (zero_one_normalize df ex).1 =
          ex ++ nonNumericCandidateNames df ex ++ numericNames df ex ∧
        (colnames (zero_one_normalize df ex).1).Perm (colnames df)) ∧
    (∀ (df : DF ℚ) (ex : List String), (colnames df).Nodup → ex.Nodup →
        ex ⊆ colnames df →
        colnames (negativeone_one_normalize df ex).1 =
          ex ++ nonNumericCandidateNames df ex ++ numericNames df ex ∧
        (colnames (negativeone_one_normalize df ex).1).Perm (colnames df)) ∧
    (∀ (df : DF ℝ) (ex : List String), (colnames df).Nodup → ex.Nodup →
        ex ⊆ colnames df →
        colnames (standardize df ex).1 =
          ex ++ nonNumericCandidateNames df ex ++ numericNames df ex ∧
        (colnames (standardize df ex).1).Perm (colnames df)) ∧
    (∀ (df : DF ℚ) (ex : List String), (colnames df).Nodup → ex.Nodup →
        ex ⊆ colnames df →
        colnames (robust_standardize df ex).1 =
          ex ++ nonNumericCandidateNames df ex ++ numericNames df ex ∧
        (colnames (robust_standardize df ex).1).Perm (colnames df)) :=
  ⟨fun _ _ hnd hexnd hsub =>
      ⟨colnames_normalizeWith hnd hsub, colnames_normalizeWith_perm hnd hexnd hsub⟩,
    fun _ _ hnd hexnd hsub =>
      ⟨colnames_normalizeWith hnd hsub, colnames_normalizeWith_perm hnd hexnd hsub⟩,
    fun _ _ hnd hexnd hsub =>
      ⟨colnames_normalizeWith hnd hsub, colnames_normalizeWith_perm hnd hexnd hsub⟩,
    fun _ _ hnd hexnd hsub =>
      ⟨colnames_normalizeWith hnd hsub, colnames_normalizeWith_perm hnd hexnd hsub⟩⟩

/-- Witness for C5: column names and order on the scenario dataset, for all
four operations. -/
theorem column_order_witness :
    (colnames (zero_one_normalize scenarioDF ["id", "ts"]).1 =
        ["id", "ts"] ++ nonNumericCandidateNames scenarioDF ["id", "ts"] ++
          numericNames scenarioDF ["id", "ts"] ∧
      (colnames (zero_one_normalize scenarioDF ["id", "ts"]).1).Perm
        (colnames scenarioDF)) ∧
    (colnames (negativeone_one_normalize scenarioDF ["id", "ts"]).1 =
        ["id", "ts"] ++ nonNumericCandidateNames scenarioDF ["id", "ts"] ++
          numericNames scenarioDF ["id", "ts"] ∧
      (colnames (negativeone_one_normalize scenarioDF ["id", "ts"]).1).Perm
        (colnames scenarioDF)) ∧
    (colnames (standardize scenarioDFR ["id", "ts"]).1 =
        ["id", "ts"] ++ nonNumericCandidateNames scenarioDFR ["id", "ts"] ++
          numericNames scenarioDFR ["id", "ts"] ∧
      (colnames (standardize scenarioDFR ["id", "ts"]).1).Perm
        (colnames scenarioDFR)) ∧
    (colnames (robust_standardize scenarioDF ["id", "ts"]).1 =
        ["id", "ts"] ++ nonNumericCandidateNames scenarioDF ["id", "ts"] ++
          numericNames scenarioDF ["id", "ts"] ∧
      (colnames (robust_standardize scenarioDF ["id", "ts"]).1).Perm
        (colnames scenarioDF)) :=
  ⟨column_order.1 scenarioDF ["id", "ts"] (by decide) (by decide) (by decide),
    column_order.2.1 scenarioDF ["id", "ts"] (by decide) (by decide) (by decide),
    column_order.2.2.1 scenarioDFR ["id", "ts"] (by decide) (by decide)
      (by decide),
    column_order.2.2.2 scenarioDF ["id", "ts"] (by decide) (by decide)
      (by decide)⟩

/-- C6: for all four operations, the caller-supplied `excluded_colnames`
list is mutated (modelled by the returned list) so that after the call it
is the caller's list, in its original order, with the names of the
non-numeric candidate columns appended at the end. -/
theorem excluded_colnames_mutation :
    (∀ (df : DF ℚ) (ex : List String), (colnames df).Nodup →
        (zero_one_normalize df ex).2 = ex ++ nonNumericCandidateNames df ex) ∧
    (∀ (df : DF ℚ) (ex : List String), (colnames df).Nodup →
        (negativeone_one_normalize df ex).2 =
          ex ++ nonNumericCandidateNames df ex) ∧
    (∀ (df : DF ℝ) (ex : List String), (colnames df).Nodup →
        (standardize df ex).2 = ex ++ nonNumericCandidateNames df ex) ∧
    (∀ (df : DF ℚ) (ex : List String), (colnames df).Nodup →
        (robust_standardize df ex).2 = ex ++ nonNumericCandidateNames df ex) :=
  ⟨fun _ _ hnd => normalizeWith_snd_eq _ hnd,
    fun _ _ hnd => normalizeWith_snd_eq _ hnd,
    fun _ _ hnd => normalizeWith_snd_eq _ hnd,
    fun _ _ hnd => normalizeWith_snd_eq _ hnd⟩

/-- Witness for C6: on a dataframe with a non-numeric candidate column
`lbl`, each operation appends `lbl` to the caller's list `["id"]`. -/
theorem excluded_colnames_mutation_witness :
    (zero_one_normalize [("id", Col.num [1, 2]), ("lbl", Col.str ["a", "b"])]
        ["id"]).2 =
      ["id"] ++ nonNumericCandidateNames
        [("id", Col.num [1, 2]), ("lbl", Col.str ["a", "b"])] ["id"] ∧
    (negativeone_one_normalize
        [("id", Col.num [1, 2]), ("lbl", Col.str ["a", "b"])] ["id"]).2 =
      ["id"] ++ nonNumericCandidateNames
        [("id", Col.num [1, 2]), ("lbl", Col.str ["a", "b"])] ["id"] ∧
    (standardize [("id", Col.num [1, 2]), ("lbl", Col.str ["a", "b"])]
        ["id"]).2 =
      ["id"] ++ nonNumericCandidateNames
        ([("id", Col.num [1, 2]), ("lbl", Col.str ["a", "b"])] : DF ℝ) ["id"] ∧
    (robust_standardize [("id", Col.num [1, 2]), ("lbl", Col.str ["a", "b"])]
        ["id"]).2 =
      ["id"] ++ nonNumericCandidateNames
        [("id", Col.num [1, 2]), ("lbl", Col.str ["a", "b"])] ["id"] :=
  ⟨excluded_colnames_mutation.1 _ ["id"] (by decide),
    excluded_colnames_mutation.2.1 _ ["id"] (by decide),
    excluded_colnames_mutation.2.2.1 _ ["id"] (by decide),
    excluded_colnames_mutation.2.2.2 _ ["id"] (by decide)⟩

/-- C7 (code bug): when every column is caller-excluded or non-numeric,
the numeric block handed to the scaler is empty, and the scaler's
`check_array` validation (`ensure_min_features=1`) makes `fit_transform`
raise `ValueError` — the call raises instead of returning the
excluded-columns dataframe unchanged as the spec asserts.  General part:
for each of the four operations, an empty numeric block yields an error.
Concrete part: on `dfAllExcluded` with `excluded_colnames = ["id"]`
(2 rows, 0 numeric columns), all four operations raise the 0-feature
`ValueError`. -/
theorem empty_numeric_block_raises :
    (∀ (df : DF ℚ) (ex : List String), (colnames df).Nodup →
        (∀ (n : String) (vs : List ℚ), (n, Col.num vs) ∈ df → n ∈ ex) →
        ∃ e, (zero_one_normalize_checked df ex).1 = Except.error e) ∧
    (∀ (df : DF ℚ) (ex : List String), (colnames df).Nodup →
        (∀ (n : String) (vs : List ℚ), (n, Col.num vs) ∈ df → n ∈ ex) →
        ∃ e, (negativeone_one_normalize_checked df ex).1 = Except.error e) ∧
    (∀ (df : DF ℝ) (ex : List String), (colnames df).Nodup →
        (∀ (n : String) (vs : List ℝ), (n, Col.num vs) ∈ df → n ∈ ex) →
        ∃ e, (standardize_checked df ex).1 = Except.error e) ∧
    (∀ (df : DF ℚ) (ex : List String), (colnames df).Nodup →
        (∀ (n : String) (vs : List ℚ), (n, Col.num vs) ∈ df → n ∈ ex) →
        ∃ e, (robust_standardize_checked df ex).1 = Except.error e) ∧
    ((zero_one_normalize_checked dfAllExcluded ["id"]).1 =
        Except.error "ValueError: Found array with 0 feature(s)" ∧
      (negativeone_one_normalize_checked dfAllExcluded ["id"]).1 =
        Except.error "ValueError: Found array with 0 feature(s)" ∧
      (standardize_checked dfAllExcludedR ["id"]).1 =
        Except.error "ValueError: Found array with 0 feature(s)" ∧
      (robust_standardize_checked dfAllExcluded ["id"]).1 =
        Except.error "ValueError: Found array with 0 feature(s)") :=
  ⟨fun _ _ hnd hall => normalizeWithChecked_error hnd hall,
    fun _ _ hnd hall => normalizeWithChecked_error hnd hall,
    fun _ _ hnd hall => normalizeWithChecked_error hnd hall,
    fun _ _ hnd hall => normalizeWithChecked_error hnd hall,
    rfl, rfl, rfl, rfl⟩

/-- Witness for C7: the general statement applied to `dfAllExcluded`. -/
theorem empty_numeric_block_raises_witness :
    ∃ e, (zero_one_normalize_checked dfAllExcluded ["id"]).1 =
      Except.error e :=
  empty_numeric_block_raises.1 dfAllExcluded ["id"] (by decide)
    (by
      intro n vs h
      simp only [dfAllExcluded, List.mem_cons, List.not_mem_nil, or_false,
        Prod.mk.injEq] at h
      rcases h with ⟨h1, _⟩ | ⟨_, h2⟩
      · simp [h1]
      · exact absurd h2 (by simp))

/-! ### Scenario computations for `standardize` -/

theorem listMean_scenario : listMean [(0:ℝ), 5, 10] = 5 := by
  norm_num [listMean]

theorem popVar_scenario : popVar [(0:ℝ), 5, 10] = 50 / 3 := by
  norm_num [popVar, listMean]

theorem stdScale_scenario :
    stdScale [(0:ℝ), 5, 10] = [-Real.sqrt (3/2), 0, Real.sqrt (3/2)] := by
  have hv : popVar [(0:ℝ), 5, 10] = 50 / 3 := popVar_scenario
  have hvne : popVar [(0:ℝ), 5, 10] ≠ 0 := by rw [hv]; norm_num
  have hs_pos : (0:ℝ) < Real.sqrt (50/3) := Real.sqrt_pos.mpr (by norm_num)
  have h25 : Real.sqrt (50/3 * (3/2)) = 5 := by
    rw [show (50/3 * (3/2) : ℝ) = 5^2 by norm_num]
    exact Real.sqrt_sq (by norm_num)
  have hsq : Real.sqrt (50/3) * Real.sqrt (3/2) = 5 := by
    rw [← Real.sqrt_mul (by norm_num : (0:ℝ) ≤ 50/3)]
    exact h25
  have h5div : 5 / Real.sqrt (50/3) = Real.sqrt (3/2) := by
    rw [eq_comm, eq_div_iff (ne_of_gt hs_pos), mul_comm]
    exact hsq
  rw [stdScale_eq hvne]
  simp only [listMean_scenario, hv, List.map_cons, List.map_nil]
  simp only [List.cons.injEq, and_true]
  refine ⟨?_, ?_, ?_⟩
  · rw [show ((0:ℝ) - 5) = -(5) by norm_num, neg_div, h5div]
  · norm_num
  · rw [show ((10:ℝ) - 5) = 5 by norm_num, h5div]

theorem sqrt_three_halves_bound :
    |Real.sqrt (3/2) - 12247/10000| < (1/10000 : ℝ) := by
  have hlb : (12247/10000 : ℝ) < Real.sqrt (3/2) := by
    rw [Real.lt_sqrt (by norm_num)]
    norm_num
  have hub : Real.sqrt (3/2) < (12248/10000 : ℝ) := by
    rw [Real.sqrt_lt' (by norm_num)]
    norm_num
  rw [abs_sub_lt_iff]
  constructor <;> linarith

theorem stdScale_const : stdScale [(2:ℝ), 2] = [0, 0] := by
  have hm : listMean [(2:ℝ), 2] = 2 := by norm_num [listMean]
  have hv : popVar [(2:ℝ), 2] = 0 := by norm_num [popVar, hm]
  rw [stdScale]
  simp only [List.map_cons, List.map_nil, stdPoint, hm, hv, Real.sqrt_zero,
    handle_zerosR]
  norm_num

/-- C2 (amended): for every input dataframe, every transformed numeric
column `vs` with nonzero population variance comes out of `standardize` as
`stdScale vs`, whose mean is exactly 0 and whose population variance (and
hence standard deviation) is exactly 1.  (Degenerate constant columns are
instead mapped to all zeros, so the unqualified claim fails; see the
counterexample.)  On the scenario dataset, `feat1` becomes
`[-√(3/2), 0, √(3/2)]`, within `10⁻⁴` of the spec's `[-1.2247, 0, 1.2247]`. -/
theorem standardize_moments :
    (∀ (df : DF ℝ) (ex : List String) (n : String) (vs : List ℝ),
        (colnames df).Nodup → (n, Col.num vs) ∈ df → n ∉ ex → popVar vs ≠ 0 →
        lookupCol (standardize df ex).1 n = some (Col.num (stdScale vs)) ∧
        listMean (stdScale vs) = 0 ∧ popVar (stdScale vs) = 1 ∧
        Real.sqrt (popVar (stdScale vs)) = 1) ∧
    (lookupCol (standardize scenarioDFR ["id", "ts"]).1 "feat1" =
        some (Col.num [-Real.sqrt (3/2), 0, Real.sqrt (3/2)]) ∧
      |Real.sqrt (3/2) - 12247/10000| < (1/10000 : ℝ)) := by
  refine ⟨fun df ex n vs hnd hmem hex hv => stdScale_column hnd hmem hex hv,
    ?_, sqrt_three_halves_bound⟩
  have h := @normalizeWith_lookup_numeric ℝ stdScale scenarioDFR ["id", "ts"]
    "feat1" [0, 5, 10] (by decide) (by simp [scenarioDFR]) (by decide)
  rw [stdScale_scenario] at h
  exact h

/-- Witness for C2: the general statement applied to the scenario dataset
at column `feat1`. -/
theorem standardize_moments_witness :
    lookupCol (standardize scenarioDFR ["id", "ts"]).1 "feat1" =
      some (Col.num (stdScale [0, 5, 10])) ∧
    listMean (stdScale [(0:ℝ), 5, 10]) = 0 ∧
    popVar (stdScale [(0:ℝ), 5, 10]) = 1 ∧
    Real.sqrt (popVar (stdScale [(0:ℝ), 5, 10])) = 1 :=
  standardize_moments.1 scenarioDFR ["id", "ts"] "feat1" [0, 5, 10]
    (by decide) (by simp [scenarioDFR]) (by decide)
    (by norm_num [popVar, listMean])

/-- C2 counterexample: the dataframe `[("a", [2, 2])]` has a numeric
column, but `standardize` maps it to `[0, 0]`, whose population standard
deviation is 0, not approximately 1: the claim as stated fails on
degenerate (zero-variance) columns. -/
theorem standardize_moments_cex :
    lookupCol (standardize [("a", Col.num [2, 2])] []).1 "a" =
      some (Col.num [0, 0]) ∧
    Real.sqrt (popVar [(0:ℝ), 0]) = 0 ∧ (0:ℝ) ≠ 1 := by
  refine ⟨?_, ?_, by norm_num⟩
  · have h := @normalizeWith_lookup_numeric ℝ stdScale [("a", Col.num [2, 2])]
      [] "a" [2, 2] (by decide) (by simp) (by simp)
    rw [stdScale_const] at h
    exact h
  · have h0 : popVar [(0:ℝ), 0] = 0 := by norm_num [popVar, listMean]
    rw [h0, Real.sqrt_zero]

/-- C9: applying `standardize` a second time to the output of a first
application (with the same columns treated as numeric, i.e. passing the
extended excluded list) again yields numeric columns with mean exactly 0
and population variance exactly 1 — re-application is stable. -/
theorem standardize_twice_moments :
    ∀ (df : DF ℝ) (ex : List String) (n : String) (vs : List ℝ),
      (colnames df).Nodup → ex.Nodup → ex ⊆ colnames df →
      (n, Col.num vs) ∈ df → n ∉ ex → popVar vs ≠ 0 →
      lookupCol (standardize (standardize df ex).1 (standardize df ex).2).1 n =
        some (Col.num (stdScale (stdScale vs))) ∧
      listMean (stdScale (stdScale vs)) = 0 ∧
      popVar (stdScale (stdScale vs)) = 1 := by
  intro df ex n vs hnd hexnd hsub hmem hex hv
  have h1 := normalizeWith_lookup_numeric (s := stdScale) hnd hmem hex
  have hnd2 : (colnames (standardize df ex).1).Nodup :=
    (colnames_normalizeWith_perm (s := stdScale) hnd hexnd hsub).nodup_iff.mpr hnd
  have hmem2 : (n, Col.num (stdScale vs)) ∈ (standardize df ex).1 :=
    mem_of_lookupCol h1
  have hex2 : n ∉ (standardize df ex).2 :=
    not_mem_snd_of_numeric (s := stdScale) hnd hmem hex
  have hv2 : popVar (stdScale vs) ≠ 0 := by
    rw [popVar_stdScale hv]
    norm_num
  exact ⟨normalizeWith_lookup_numeric (s := stdScale) hnd2 hmem2 hex2,
    listMean_stdScale hv2, popVar_stdScale hv2⟩

/-- Witness for C9: two applications of `standardize` on the scenario
dataset at column `feat1`. -/
theorem standardize_twice_moments_witness :
    lookupCol (standardize (standardize scenarioDFR ["id", "ts"]).1
        (standardize scenarioDFR ["id", "ts"]).2).1 "feat1" =
      some (Col.num (stdScale (stdScale [0, 5, 10]))) ∧
    listMean (stdScale (stdScale [(0:ℝ), 5, 10])) = 0 ∧
    popVar (stdScale (stdScale [(0:ℝ), 5, 10])) = 1 :=
  standardize_twice_moments scenarioDFR ["id", "ts"] "feat1" [0, 5, 10]
    (by decide) (by decide) (by decide) (by simp [scenarioDFR]) (by decide)
    (by norm_num [popVar, listMean])

/-- C10: calls that omit `excluded_colnames` share the function's single
default list object: each such call appends the non-numeric candidate
names to the stored default before the scaler runs (general part, all four
functions), so a later call with the argument omitted starts with those
names already excluded, even on a different dataframe.  Concretely: the
first omitted-argument call on `dfShared1` raises (its only column is
non-numeric, so the numeric block is empty) but still leaves `["c"]` in
the shared default; the second omitted-argument call on `dfShared2`, whose
column `c` is numeric, therefore starts with `c` already excluded and also
raises on an empty numeric block, its excluded list staying `["c"]` —
whereas the same call with a fresh empty list completes and rescales `c`
to `[0, 1]`. -/
theorem shared_default_list :
    (∀ (st : ModuleState) (df : DF ℚ), (colnames df).Nodup →
        (zero_one_normalize_omitted st df).2.zeroOneDefault =
          st.zeroOneDefault ++ nonNumericCandidateNames df st.zeroOneDefault) ∧
    (∀ (st : ModuleState) (df : DF ℚ), (colnames df).Nodup →
        (negativeone_one_normalize_omitted st df).2.negOneDefault =
          st.negOneDefault ++ nonNumericCandidateNames df st.negOneDefault) ∧
    (∀ (st : ModuleState) (df : DF ℝ), (colnames df).Nodup →
        (standardize_omitted st df).2.stdDefault =
          st.stdDefault ++ nonNumericCandidateNames df st.stdDefault) ∧
    (∀ (st : ModuleState) (df : DF ℚ), (colnames df).Nodup →
        (robust_standardize_omitted st df).2.robustDefault =
          st.robustDefault ++ nonNumericCandidateNames df st.robustDefault) ∧
    ((zero_one_normalize_omitted initState dfShared1).2.zeroOneDefault =
        ["c"] ∧
      (zero_one_normalize_omitted initState dfShared1).1 =
        Except.error "ValueError: Found array with 0 feature(s)" ∧
      (zero_one_normalize_omitted
          (zero_one_normalize_omitted initState dfShared1).2 dfShared2).1 =
        Except.error "ValueError: Found array with 0 feature(s)" ∧
      (zero_one_normalize_omitted
          (zero_one_normalize_omitted initState dfShared1).2
          dfShared2).2.zeroOneDefault = ["c"] ∧
      (zero_one_normalize_checked dfShared2 []).1 =
        Except.ok [("c", Col.num [0, 1])]) := by
  refine ⟨fun st df hnd => ?_, fun st df hnd => ?_, fun st df hnd => ?_,
    fun st df hnd => ?_, by decide, rfl, rfl, by decide, ?_⟩
  · show (normalizeWith (minMaxScale 0 1) df st.zeroOneDefault).2 = _
    exact normalizeWith_snd_eq _ hnd
  · show (normalizeWith (minMaxScale (-1) 1) df st.negOneDefault).2 = _
    exact normalizeWith_snd_eq _ hnd
  · show (normalizeWith stdScale df st.stdDefault).2 = _
    exact normalizeWith_snd_eq _ hnd
  · show (normalizeWith robustScale df st.robustDefault).2 = _
    exact normalizeWith_snd_eq _ hnd
  · show (normalizeWithChecked (minMaxScale 0 1) dfShared2 []).1 = _
    rw [@normalizeWithChecked_ok ℚ (minMaxScale 0 1) dfShared2 [] rfl]
    simp +decide [normalizeWith, dfShared2, colnames, selectCols,
      selectNumeric, selectNonNumeric, lookupCol, Col.isNum, Col.numVals,
      minMaxScale, minMaxPoint, listMin, listMax, handle_zeros]
    norm_num

/-- Witness for C10: the general statement applied to the initial module
state and `dfShared1`. -/
theorem shared_default_list_witness :
    (zero_one_normalize_omitted initState dfShared1).2.zeroOneDefault =
      initState.zeroOneDefault ++
        nonNumericCandidateNames dfShared1 initState.zeroOneDefault :=
  shared_default_list.1 initState dfShared1 (by decide)

end Normalizer
